import Mathlib

/-!
Verification of the HTTP header store and date codec of this repository.

The repository has two source files: `inc/header.hpp`, which declares the
`Header` class (an insertion-ordered, capacity-bounded store of
name/value span pairs), and `src/time.cpp`, which implements the HTTP
date codec on top of the C library functions `gmtime`, `mktime`,
`strptime` and `put_time`.

The member function bodies of `Header` are declared but not present in
the sources, so the store operations below are modelled from the spec,
as marked in their doc comments.  The date codec is translated directly
from `src/time.cpp`; the C library functions it calls are modelled from
their documented (glibc) behaviour.  Spans are modelled as `String`,
the capacity type `Limit` as `Nat`, `std::time_t` as `Int`.
-/

namespace Http

/-- One HTTP header field: a (name-span, value-span) pair.  The span view
type is an external collaborator of the repository and is modelled as
`String`. -/
structure Field where
  name : String
  value : String
deriving Repr, DecidableEq

/-- Modelled from the spec: field-name comparison is case-insensitive
ASCII comparison, per HTTP field-name semantics (spec section 4.1,
Design Notes).  Both names are lowered character by character;
`Char.toLower` lowers exactly the ASCII range. -/
def nameMatches (a b : String) : Bool :=
  a.data.map Char.toLower == b.data.map Char.toLower

/-- The header store: an ordered sequence of fields (`map_`, mirroring the
`Field_Map map_` data member of class `Header`) plus the fixed capacity
`limit`.  Modelled from the spec: the capacity is set at construction and
never changes. -/
structure Header where
  limit : Nat
  map_ : List Field
deriving Repr, DecidableEq

/-- Number of fields currently stored (member `size`). -/
def Header.size (h : Header) : Nat := h.map_.length

/-- Member `is_empty`: whether the store holds no fields. -/
def Header.is_empty (h : Header) : Bool := h.map_.isEmpty

/-- Modelled from the spec: `add_field` appends a new field at the end of
the sequence if `size() < limit` and returns `true`; otherwise it returns
`false` and leaves the store unchanged.  The member body is declared in
`inc/header.hpp` but not present under the sources. -/
def Header.add_field (h : Header) (n v : String) : Bool × Header :=
  if h.size < h.limit then (true, ⟨h.limit, h.map_ ++ [⟨n, v⟩]⟩)
  else (false, h)

/-- Modelled from the spec: `has_field` is a linear scan for a field whose
name matches case-insensitively. -/
def Header.has_field (h : Header) (n : String) : Bool :=
  h.map_.any (fun f => nameMatches f.name n)

/-- Modelled from the spec: `get_value` returns the value of the first
field whose name matches.  The source returns an invalid reference when
the name is absent (a contract violation); the total embedding returns
`none` there. -/
def Header.get_value (h : Header) (n : String) : Option String :=
  (h.map_.find? (fun f => nameMatches f.name n)).map Field.value

/-- Helper for `set_field`: replace the value of the first field whose
name matches, keeping the stored name and the position; `none` when no
field matches. -/
def setFirstValue (n v : String) : List Field → Option (List Field)
  | [] => none
  | f :: fs =>
    if nameMatches f.name n then some (⟨f.name, v⟩ :: fs)
    else (setFirstValue n v fs).map (f :: ·)

/-- Modelled from the spec: `set_field` locates the first field whose name
matches and replaces only its value in place, preserving its position;
when no field matches it behaves exactly as `add_field`, including the
capacity check and the returned boolean. -/
def Header.set_field (h : Header) (n v : String) : Bool × Header :=
  match setFirstValue n v h.map_ with
  | some m => (true, ⟨h.limit, m⟩)
  | none => h.add_field n v

/-- Modelled from the spec: `erase` removes all fields whose name matches,
compacting the sequence and preserving the relative order of the rest. -/
def Header.erase (h : Header) (n : String) : Header :=
  ⟨h.limit, h.map_.filter (fun f => !nameMatches f.name n)⟩

/-- Modelled from the spec: `clear` removes every field; the capacity is
unchanged. -/
def Header.clear (h : Header) : Header := ⟨h.limit, []⟩

/-- Construction with an explicit capacity (the `Header(Limit)`
constructor): an empty store with the given limit. -/
def mkHeader (limit : Nat) : Header := ⟨limit, []⟩

/-- The default capacity used by the default `Header()` constructor. -/
def defaultLimit : Nat := 100

/-- Modelled from the spec: serialization renders every field in
insertion order as `name`, colon, space, `value`, CRLF, concatenated
with no leading or trailing blank line (the streaming `operator<<`
declared in `inc/header.hpp`). -/
def Header.toText (h : Header) : String :=
  String.join (h.map_.map (fun f => f.name ++ ": " ++ f.value ++ "\r\n"))

/-- The operations a caller can perform on a store after construction;
used to state the reachable-state invariant of claim C7. -/
inductive HOp where
  | addF : String → String → HOp
  | setF : String → String → HOp
  | eraseF : String → HOp
  | clearF : HOp

/-- Apply one store operation, discarding the returned boolean. -/
def applyOp (h : Header) : HOp → Header
  | .addF n v => (h.add_field n v).2
  | .setF n v => (h.set_field n v).2
  | .eraseF n => h.erase n
  | .clearF => h.clear

/-- Apply a sequence of store operations in order. -/
def applyOps (h : Header) (ops : List HOp) : Header := ops.foldl applyOp h

/-!
The date codec of `src/time.cpp`.

`from_time_t` is `std::gmtime` followed by `std::put_time` with the
format `%a, %d %b %Y %H:%M:%S %Z`; `to_time_t` is three `strptime`
attempts on one shared zero-initialized `std::tm`, each followed by
`std::mktime` on success, with the zero `time_t` as the fallthrough
result.  The C library functions are modelled from their documented
glibc behaviour: the calendar conversion is the proleptic Gregorian
civil-from-days / days-from-civil algorithm, `strptime` numeric fields
read bounded digit strings (with glibc's width and early-stop rule) and
name fields match full or abbreviated names case-insensitively,
`mktime` interprets the broken-down fields as local time, which the
model expresses with an explicit process time-zone offset parameter
(seconds east of UTC); `gmtime` never consults that offset. -/

/-- The decimal digit character for a value below ten. -/
def digitChar (n : Nat) : Char := Char.ofNat (48 + n)

/-- Decimal digits of a natural number, most significant first; the
first argument is recursion fuel, always called with fuel above the
number. -/
def natDigitsAux : Nat → Nat → List Char
  | 0, _ => []
  | fuel + 1, n =>
    if n < 10 then [digitChar n]
    else natDigitsAux fuel (n / 10) ++ [digitChar (n % 10)]

/-- Decimal digits of a natural number, most significant first. -/
def natDigits (n : Nat) : List Char := natDigitsAux (n + 1) n

/-- Decimal text of an integer (the year as printed by `%Y`: a plain
decimal number, not padded, per the C standard and glibc). -/
def intDigits (x : Int) : List Char :=
  if x < 0 then '-' :: natDigits (-x).toNat else natDigits x.toNat

/-- Zero-padded two-digit decimal (the `%d`, `%H`, `%M`, `%S` output). -/
def pad2 (n : Nat) : List Char :=
  if n < 10 then '0' :: natDigits n else natDigits n

/-- Value of a digit string, most significant first. -/
def digitsVal (ds : List Char) : Nat :=
  ds.foldl (fun a c => 10 * a + (c.toNat - 48)) 0

/-- Abbreviated weekday names, indexed by `tm_wday`. -/
def abDayNames : List String :=
  ["Sun", "Mon", "Tue", "Wed", "Thu", "Fri", "Sat"]

/-- Full weekday names, indexed by `tm_wday`. -/
def fullDayNames : List String :=
  ["Sunday", "Monday", "Tuesday", "Wednesday", "Thursday", "Friday", "Saturday"]

/-- Abbreviated month names, indexed by `tm_mon`. -/
def abMonNames : List String :=
  ["Jan", "Feb", "Mar", "Apr", "May", "Jun",
   "Jul", "Aug", "Sep", "Oct", "Nov", "Dec"]

/-- Full month names, indexed by `tm_mon`. -/
def fullMonNames : List String :=
  ["January", "February", "March", "April", "May", "June",
   "July", "August", "September", "October", "November", "December"]

/-- The year of the 400-year era containing a day-of-era (part of the
civil-from-days algorithm used by the C library calendar).  All
divisions below are floor divisions; every divisor is positive, so
the operator `/` on integers (`Int.ediv`) is floor division here. -/
def yoeOfDoe (doe : Int) : Int :=
  (doe - doe / 1460 + doe / 36524 - doe / 146096) / 365

/-- First day-of-era of a year-of-era. -/
def startOfYoe (yoe : Int) : Int :=
  365 * yoe + yoe / 4 - yoe / 100

/-- March-based month index (0 = March) of a day-of-year counted from
March 1. -/
def mpOfDoy (doy : Int) : Int := (5 * doy + 2) / 153

/-- Day of month of a March-based day-of-year. -/
def dOfDoy (doy : Int) : Int :=
  doy - (153 * mpOfDoy doy + 2) / 5 + 1

/-- Civil month (1..12) of a March-based day-of-year. -/
def mOfDoy (doy : Int) : Int :=
  if mpOfDoy doy < 10 then mpOfDoy doy + 3 else mpOfDoy doy - 9

/-- March-based month index of a civil month. -/
def mpOfM (m : Int) : Int := if 2 < m then m - 3 else m + 9

/-- March-based day-of-year of a civil month and day of month. -/
def doyOfMD (m d : Int) : Int := (153 * mpOfM m + 2) / 5 + d - 1

/-- Days since the epoch 1970-01-01 of a proleptic Gregorian civil date
(the days-from-civil algorithm used by the C library calendar). -/
def daysFromCivil (y m d : Int) : Int :=
  let y' := if m ≤ 2 then y - 1 else y
  let era := y' / 400
  let yoe := y' - era * 400
  let doe := startOfYoe yoe + doyOfMD m d
  era * 146097 + doe - 719468

/-- Civil date (year, month 1..12, day 1..31) of a count of days since
the epoch 1970-01-01 (the civil-from-days algorithm used by the C
library calendar). -/
def civilFromDays (z : Int) : Int × Int × Int :=
  let era := (z + 719468) / 146097
  let doe := z + 719468 - era * 146097
  let yoe := yoeOfDoe doe
  let doy := doe - startOfYoe yoe
  let m := mOfDoy doy
  let d := dOfDoy doy
  let y := yoe + era * 400
  (if m ≤ 2 then y + 1 else y, m, d)

/-- The broken-down time `std::tm`, restricted to the fields the codec
reads and writes (`strptime` with the three formats of `src/time.cpp`
assigns exactly these; `mktime` reads all but `tm_wday`). -/
structure Tm where
  tm_sec : Int
  tm_min : Int
  tm_hour : Int
  tm_mday : Int
  tm_mon : Int
  tm_year : Int
  tm_wday : Int
deriving Repr, DecidableEq

/-- The zero-initialized `std::tm tm` declared at the top of
`to_time_t`. -/
def tmZero : Tm := ⟨0, 0, 0, 0, 0, 0, 0⟩

/-- Model of `std::gmtime`: the UTC broken-down time of an instant, or
`none` when the year does not fit the `int` field `tm_year` (the only
failure of glibc's `__offtime`). -/
def gmtime (t : Int) : Option Tm :=
  let days := t / 86400
  let secs := t % 86400
  let c := civilFromDays days
  let y := c.1
  let m := c.2.1
  let d := c.2.2
  if y - 1900 < -(2 ^ 31) ∨ 2 ^ 31 - 1 < y - 1900 then none
  else
    some ⟨secs % 60, (secs / 60) % 60, secs / 3600,
      d, m - 1, y - 1900, (days + 4) % 7⟩

/-- Model of `std::mktime` under a fixed process time zone given as an
offset in seconds east of UTC: the broken-down fields are read as local
time, so the resulting instant is the fields counted as seconds minus
the offset.  Out-of-range field values are normalized arithmetically,
as `mktime` does. -/
def mktime (tzOffset : Int) (tm : Tm) : Int :=
  86400 * daysFromCivil (tm.tm_year + 1900) (tm.tm_mon + 1) tm.tm_mday
    + 3600 * tm.tm_hour + 60 * tm.tm_min + tm.tm_sec - tzOffset

/-- The character stream `put_time(tm, "%a, %d %b %Y %H:%M:%S %Z")`
produces for a `tm` obtained from `gmtime` (whose zone name is GMT):
abbreviated weekday name, comma, space, zero-padded two-digit day,
space, abbreviated month name, space, unpadded decimal year, space,
two-digit hour, minute and second separated by colons, space, GMT. -/
def httpDateChars (tm : Tm) : List Char :=
  (abDayNames.getD tm.tm_wday.toNat "?").data
    ++ ',' :: ' ' :: (pad2 tm.tm_mday.toNat
    ++ ' ' :: ((abMonNames.getD tm.tm_mon.toNat "?").data
    ++ ' ' :: (intDigits (tm.tm_year + 1900)
    ++ ' ' :: (pad2 tm.tm_hour.toNat
    ++ ':' :: (pad2 tm.tm_min.toNat
    ++ ':' :: (pad2 tm.tm_sec.toNat
    ++ ' ' :: 'G' :: 'M' :: 'T' :: []))))))

/-- Translation of `http::time::from_time_t` (src/time.cpp lines 24-34):
`gmtime` on the instant; on success the stream formatted with
`%a, %d %b %Y %H:%M:%S %Z`, on failure the empty string. -/
def from_time_t (t : Int) : String :=
  match gmtime t with
  | none => ""
  | some tm => String.mk (httpDateChars tm)

/-- Case-insensitive match of a constant name against the input head;
returns the unconsumed input on success (glibc `match_string`). -/
def matchCI : List Char → List Char → Option (List Char)
  | [], cs => some cs
  | _ :: _, [] => none
  | p :: ps, c :: cs =>
    if p.toLower = c.toLower then matchCI ps cs else none

/-- Try a list of (name, value) candidates in order, returning the value
of the first name that matches case-insensitively. -/
def parseNameFrom (cands : List (String × Nat)) (cs : List Char) :
    Option (Nat × List Char) :=
  match cands with
  | [] => none
  | (s, v) :: rest =>
    match matchCI s.data cs with
    | some cs' => some (v, cs')
    | none => parseNameFrom rest cs

/-- Candidates for `%a` in glibc order: for each weekday, the full name
then the abbreviation. -/
def dayCands : List (String × Nat) :=
  [("Sunday", 0), ("Sun", 0), ("Monday", 1), ("Mon", 1),
   ("Tuesday", 2), ("Tue", 2), ("Wednesday", 3), ("Wed", 3),
   ("Thursday", 4), ("Thu", 4), ("Friday", 5), ("Fri", 5),
   ("Saturday", 6), ("Sat", 6)]

/-- Candidates for `%b` in glibc order: for each month, the full name
then the abbreviation. -/
def monCands : List (String × Nat) :=
  [("January", 0), ("Jan", 0), ("February", 1), ("Feb", 1),
   ("March", 2), ("Mar", 2), ("April", 3), ("Apr", 3),
   ("May", 4), ("May", 4), ("June", 5), ("Jun", 5),
   ("July", 6), ("Jul", 6), ("August", 7), ("Aug", 7),
   ("September", 8), ("Sep", 8), ("October", 9), ("Oct", 9),
   ("November", 10), ("Nov", 10), ("December", 11), ("Dec", 11)]

/-- Match one exact literal character of the format. -/
def parseLit (c : Char) : List Char → Option (List Char)
  | [] => none
  | c' :: cs => if c' = c then some cs else none

/-- A whitespace character in the format consumes any amount of input
whitespace, including none. -/
def skipWs : List Char → List Char
  | [] => []
  | c :: cs => if c.isWhitespace then skipWs cs else c :: cs

/-- The digit-consuming loop of glibc `get_number` after the first
digit: consume while width remains, the accumulated value times ten
does not exceed the upper bound, and the next character is a digit. -/
def getNumLoop (hi : Nat) : Nat → Nat → List Char → Nat × List Char
  | 0, val, cs => (val, cs)
  | w + 1, val, cs =>
    match cs with
    | [] => (val, [])
    | c :: cs' =>
      if c.isDigit ∧ val * 10 ≤ hi then
        getNumLoop hi w (val * 10 + (c.toNat - 48)) cs'
      else (val, c :: cs')

/-- glibc `get_number`: at least one digit, at most `w` digits, final
value within `[lo, hi]`. -/
def getNumber (lo hi w : Nat) (cs : List Char) : Option (Nat × List Char) :=
  match cs with
  | [] => none
  | c :: cs' =>
    if c.isDigit then
      let p := getNumLoop hi (w - 1) (c.toNat - 48) cs'
      if lo ≤ p.1 ∧ p.1 ≤ hi then some p else none
    else none

/-- The `%Z` directive: consume a recognized zone name (GMT or UTC,
case-insensitively) when one is present, otherwise consume nothing;
it never fails and assigns no field (glibc ignores `%Z` entirely;
libcs that do read it consume the name). -/
def parseTz (cs : List Char) : List Char :=
  match matchCI "GMT".data cs with
  | some rest => rest
  | none =>
    match matchCI "UTC".data cs with
    | some rest => rest
    | none => cs

/-- One `strptime` call with format `%a, %d %b %Y %H:%M:%S %Z` (the
RFC 1123 grammar, first attempt of `to_time_t`).  The broken-down time
is threaded through and written field by field as directives match, as
`strptime` writes `*tm`; on failure the partially written fields are
returned as-is.  The result's first component is the unconsumed rest of
the input on success (a prefix match suffices, as for `strptime`),
`none` on failure. -/
def runFmt1123 (tm : Tm) (cs : List Char) : Option (List Char) × Tm :=
  match parseNameFrom dayCands cs with
  | none => (none, tm)
  | some (w, cs1) =>
    let tmA : Tm := { tm with tm_wday := (w : Int) }
    match parseLit ',' cs1 with
    | none => (none, tmA)
    | some cs2 =>
      match getNumber 1 31 2 (skipWs cs2) with
      | none => (none, tmA)
      | some (d, cs3) =>
        let tmB : Tm := { tmA with tm_mday := (d : Int) }
        match parseNameFrom monCands (skipWs cs3) with
        | none => (none, tmB)
        | some (mo, cs4) =>
          let tmC : Tm := { tmB with tm_mon := (mo : Int) }
          match getNumber 0 9999 4 (skipWs cs4) with
          | none => (none, tmC)
          | some (y, cs5) =>
            let tmD : Tm := { tmC with tm_year := (y : Int) - 1900 }
            match getNumber 0 23 2 (skipWs cs5) with
            | none => (none, tmD)
            | some (hh, cs6) =>
              let tmE : Tm := { tmD with tm_hour := (hh : Int) }
              match parseLit ':' cs6 with
              | none => (none, tmE)
              | some cs7 =>
                match getNumber 0 59 2 cs7 with
                | none => (none, tmE)
                | some (mi, cs8) =>
                  let tmF : Tm := { tmE with tm_min := (mi : Int) }
                  match parseLit ':' cs8 with
                  | none => (none, tmF)
                  | some cs9 =>
                    match getNumber 0 61 2 cs9 with
                    | none => (none, tmF)
                    | some (s, cs10) =>
                      let tmG : Tm := { tmF with tm_sec := (s : Int) }
                      (some (parseTz (skipWs cs10)), tmG)

/-- One `strptime` call with format `%a, %d-%b-%y %H:%M:%S %Z` (the
RFC 850 grammar, second attempt of `to_time_t`).  `%y` applies glibc's
century rule: two-digit years up to 68 land in 2000-2068, the rest in
1969-1999. -/
def runFmt850 (tm : Tm) (cs : List Char) : Option (List Char) × Tm :=
  match parseNameFrom dayCands cs with
  | none => (none, tm)
  | some (w, cs1) =>
    let tmA : Tm := { tm with tm_wday := (w : Int) }
    match parseLit ',' cs1 with
    | none => (none, tmA)
    | some cs2 =>
      match getNumber 1 31 2 (skipWs cs2) with
      | none => (none, tmA)
      | some (d, cs3) =>
        let tmB : Tm := { tmA with tm_mday := (d : Int) }
        match parseLit '-' cs3 with
        | none => (none, tmB)
        | some cs4 =>
          match parseNameFrom monCands cs4 with
          | none => (none, tmB)
          | some (mo, cs5) =>
            let tmC : Tm := { tmB with tm_mon := (mo : Int) }
            match parseLit '-' cs5 with
            | none => (none, tmC)
            | some cs6 =>
              match getNumber 0 99 2 cs6 with
              | none => (none, tmC)
              | some (y, cs7) =>
                let tmD : Tm :=
                  { tmC with tm_year := if y ≤ 68 then (y : Int) + 100 else (y : Int) }
                match getNumber 0 23 2 (skipWs cs7) with
                | none => (none, tmD)
                | some (hh, cs8) =>
                  let tmE : Tm := { tmD with tm_hour := (hh : Int) }
                  match parseLit ':' cs8 with
                  | none => (none, tmE)
                  | some cs9 =>
                    match getNumber 0 59 2 cs9 with
                    | none => (none, tmE)
                    | some (mi, cs10) =>
                      let tmF : Tm := { tmE with tm_min := (mi : Int) }
                      match parseLit ':' cs10 with
                      | none => (none, tmF)
                      | some cs11 =>
                        match getNumber 0 61 2 cs11 with
                        | none => (none, tmF)
                        | some (s, cs12) =>
                          let tmG : Tm := { tmF with tm_sec := (s : Int) }
                          (some (parseTz (skipWs cs12)), tmG)

/-- One `strptime` call with format `%a %b %d %H:%M:%S %Y` (the ANSI C
asctime grammar, third attempt of `to_time_t`). -/
def runAsctime (tm : Tm) (cs : List Char) : Option (List Char) × Tm :=
  match parseNameFrom dayCands cs with
  | none => (none, tm)
  | some (w, cs1) =>
    let tmA : Tm := { tm with tm_wday := (w : Int) }
    match parseNameFrom monCands (skipWs cs1) with
    | none => (none, tmA)
    | some (mo, cs2) =>
      let tmB : Tm := { tmA with tm_mon := (mo : Int) }
      match getNumber 1 31 2 (skipWs cs2) with
      | none => (none, tmB)
      | some (d, cs3) =>
        let tmC : Tm := { tmB with tm_mday := (d : Int) }
        match getNumber 0 23 2 (skipWs cs3) with
        | none => (none, tmC)
        | some (hh, cs4) =>
          let tmD : Tm := { tmC with tm_hour := (hh : Int) }
          match parseLit ':' cs4 with
          | none => (none, tmD)
          | some cs5 =>
            match getNumber 0 59 2 cs5 with
            | none => (none, tmD)
            | some (mi, cs6) =>
              let tmE : Tm := { tmD with tm_min := (mi : Int) }
              match parseLit ':' cs6 with
              | none => (none, tmE)
              | some cs7 =>
                match getNumber 0 61 2 cs7 with
                | none => (none, tmE)
                | some (s, cs8) =>
                  let tmF : Tm := { tmE with tm_sec := (s : Int) }
                  match getNumber 0 9999 4 (skipWs cs8) with
                  | none => (none, tmF)
                  | some (y, cs9) =>
                    let tmG : Tm := { tmF with tm_year := (y : Int) - 1900 }
                    (some cs9, tmG)

/-- Translation of `http::time::to_time_t` (src/time.cpp lines 37-59):
on empty input the zero instant; otherwise the three `strptime`
attempts in order on the one shared zero-initialized `tm`, each
followed by `mktime` on success; the zero instant when all fail.  The
process time zone enters only through `mktime`'s offset parameter. -/
def to_time_t (tzOffset : Int) (s : String) : Int :=
  if s.data = [] then 0
  else
    match runFmt1123 tmZero s.data with
    | (some _, tm1) => mktime tzOffset tm1
    | (none, tm1) =>
      match runFmt850 tm1 s.data with
      | (some _, tm2) => mktime tzOffset tm2
      | (none, tm2) =>
        match runAsctime tm2 s.data with
        | (some _, tm3) => mktime tzOffset tm3
        | (none, _) => 0

/-- Modelled from the spec (refinement target for claim C1): the three
grammars are attempted in strict order on a fresh zero `tm` each, and
only an attempt that consumes the entire input counts as a match. -/
def to_time_t_fullmatch (tzOffset : Int) (s : String) : Int :=
  if s.data = [] then 0
  else
    match runFmt1123 tmZero s.data with
    | (some [], tm1) => mktime tzOffset tm1
    | _ =>
      match runFmt850 tmZero s.data with
      | (some [], tm2) => mktime tzOffset tm2
      | _ =>
        match runAsctime tmZero s.data with
        | (some [], tm3) => mktime tzOffset tm3
        | _ => 0

/-- The amended reading of claim C1: grammars attempted in strict order
on a fresh zero `tm` each (independent attempts), where matching a
prefix of the input suffices, as for `strptime`. -/
def to_time_t_indep (tzOffset : Int) (s : String) : Int :=
  if s.data = [] then 0
  else
    match runFmt1123 tmZero s.data with
    | (some _, tm1) => mktime tzOffset tm1
    | (none, _) =>
      match runFmt850 tmZero s.data with
      | (some _, tm2) => mktime tzOffset tm2
      | (none, _) =>
        match runAsctime tmZero s.data with
        | (some _, tm3) => mktime tzOffset tm3
        | (none, _) => 0

/-- Modelled from the spec (refinement target for claim C2): the
RFC 7231 preferred form with its fixed-width fields, built from the
broken-down UTC fields: day-name comma space 2DIGIT day space month
space 4DIGIT year space 2DIGIT colon 2DIGIT colon 2DIGIT space GMT. -/
def rfc7231DateText (tm : Tm) : String :=
  String.mk
    ((abDayNames.getD tm.tm_wday.toNat "?").data
      ++ ',' :: ' '
      :: digitChar (tm.tm_mday.toNat / 10) :: digitChar (tm.tm_mday.toNat % 10)
      :: ' ' :: ((abMonNames.getD tm.tm_mon.toNat "?").data
      ++ ' '
      :: digitChar ((tm.tm_year + 1900).toNat / 1000)
      :: digitChar ((tm.tm_year + 1900).toNat / 100 % 10)
      :: digitChar ((tm.tm_year + 1900).toNat / 10 % 10)
      :: digitChar ((tm.tm_year + 1900).toNat % 10)
      :: ' '
      :: digitChar (tm.tm_hour.toNat / 10) :: digitChar (tm.tm_hour.toNat % 10)
      :: ':'
      :: digitChar (tm.tm_min.toNat / 10) :: digitChar (tm.tm_min.toNat % 10)
      :: ':'
      :: digitChar (tm.tm_sec.toNat / 10) :: digitChar (tm.tm_sec.toNat % 10)
      :: ' ' :: 'G' :: 'M' :: 'T' :: []))

/-! Auxiliary lemmas about the parsers: whether an attempt succeeds, and
where it leaves off, never depends on the incoming broken-down time, and
a successful attempt overwrites every field, so two runs from different
incoming times agree on success. -/

lemma runFmt1123_agree (tm tm' : Tm) (cs : List Char) :
    (runFmt1123 tm cs).1 = (runFmt1123 tm' cs).1 ∧
    ((runFmt1123 tm cs).1 ≠ none → (runFmt1123 tm cs).2 = (runFmt1123 tm' cs).2) := by
  unfold runFmt1123
  cases parseNameFrom dayCands cs with
  | none => exact ⟨rfl, fun hc => absurd rfl hc⟩
  | some p1 =>
  obtain ⟨w, cs1⟩ := p1
  dsimp only
  cases parseLit ',' cs1 with
  | none => exact ⟨rfl, fun hc => absurd rfl hc⟩
  | some cs2 =>
  dsimp only
  cases getNumber 1 31 2 (skipWs cs2) with
  | none => exact ⟨rfl, fun hc => absurd rfl hc⟩
  | some p2 =>
  obtain ⟨d, cs3⟩ := p2
  dsimp only
  cases parseNameFrom monCands (skipWs cs3) with
  | none => exact ⟨rfl, fun hc => absurd rfl hc⟩
  | some p3 =>
  obtain ⟨mo, cs4⟩ := p3
  dsimp only
  cases getNumber 0 9999 4 (skipWs cs4) with
  | none => exact ⟨rfl, fun hc => absurd rfl hc⟩
  | some p4 =>
  obtain ⟨y, cs5⟩ := p4
  dsimp only
  cases getNumber 0 23 2 (skipWs cs5) with
  | none => exact ⟨rfl, fun hc => absurd rfl hc⟩
  | some p5 =>
  obtain ⟨hh, cs6⟩ := p5
  dsimp only
  cases parseLit ':' cs6 with
  | none => exact ⟨rfl, fun hc => absurd rfl hc⟩
  | some cs7 =>
  dsimp only
  cases getNumber 0 59 2 cs7 with
  | none => exact ⟨rfl, fun hc => absurd rfl hc⟩
  | some p6 =>
  obtain ⟨mi, cs8⟩ := p6
  dsimp only
  cases parseLit ':' cs8 with
  | none => exact ⟨rfl, fun hc => absurd rfl hc⟩
  | some cs9 =>
  dsimp only
  cases getNumber 0 61 2 cs9 with
  | none => exact ⟨rfl, fun hc => absurd rfl hc⟩
  | some p7 =>
  obtain ⟨s, cs10⟩ := p7
  dsimp only
  exact ⟨rfl, fun _ => rfl⟩

lemma runFmt850_agree (tm tm' : Tm) (cs : List Char) :
    (runFmt850 tm cs).1 = (runFmt850 tm' cs).1 ∧
    ((runFmt850 tm cs).1 ≠ none → (runFmt850 tm cs).2 = (runFmt850 tm' cs).2) := by
  unfold runFmt850
  cases parseNameFrom dayCands cs with
  | none => exact ⟨rfl, fun hc => absurd rfl hc⟩
  | some p1 =>
  obtain ⟨w, cs1⟩ := p1
  dsimp only
  cases parseLit ',' cs1 with
  | none => exact ⟨rfl, fun hc => absurd rfl hc⟩
  | some cs2 =>
  dsimp only
  cases getNumber 1 31 2 (skipWs cs2) with
  | none => exact ⟨rfl, fun hc => absurd rfl hc⟩
  | some p2 =>
  obtain ⟨d, cs3⟩ := p2
  dsimp only
  cases parseLit '-' cs3 with
  | none => exact ⟨rfl, fun hc => absurd rfl hc⟩
  | some cs4 =>
  dsimp only
  cases parseNameFrom monCands cs4 with
  | none => exact ⟨rfl, fun hc => absurd rfl hc⟩
  | some p3 =>
  obtain ⟨mo, cs5⟩ := p3
  dsimp only
  cases parseLit '-' cs5 with
  | none => exact ⟨rfl, fun hc => absurd rfl hc⟩
  | some cs6 =>
  dsimp only
  cases getNumber 0 99 2 cs6 with
  | none => exact ⟨rfl, fun hc => absurd rfl hc⟩
  | some p4 =>
  obtain ⟨y, cs7⟩ := p4
  dsimp only
  cases getNumber 0 23 2 (skipWs cs7) with
  | none => exact ⟨rfl, fun hc => absurd rfl hc⟩
  | some p5 =>
  obtain ⟨hh, cs8⟩ := p5
  dsimp only
  cases parseLit ':' cs8 with
  | none => exact ⟨rfl, fun hc => absurd rfl hc⟩
  | some cs9 =>
  dsimp only
  cases getNumber 0 59 2 cs9 with
  | none => exact ⟨rfl, fun hc => absurd rfl hc⟩
  | some p6 =>
  obtain ⟨mi, cs10⟩ := p6
  dsimp only
  cases parseLit ':' cs10 with
  | none => exact ⟨rfl, fun hc => absurd rfl hc⟩
  | some cs11 =>
  dsimp only
  cases getNumber 0 61 2 cs11 with
  | none => exact ⟨rfl, fun hc => absurd rfl hc⟩
  | some p7 =>
  obtain ⟨s, cs12⟩ := p7
  dsimp only
  exact ⟨rfl, fun _ => rfl⟩

lemma runAsctime_agree (tm tm' : Tm) (cs : List Char) :
    (runAsctime tm cs).1 = (runAsctime tm' cs).1 ∧
    ((runAsctime tm cs).1 ≠ none → (runAsctime tm cs).2 = (runAsctime tm' cs).2) := by
  unfold runAsctime
  cases parseNameFrom dayCands cs with
  | none => exact ⟨rfl, fun hc => absurd rfl hc⟩
  | some p1 =>
  obtain ⟨w, cs1⟩ := p1
  dsimp only
  cases parseNameFrom monCands (skipWs cs1) with
  | none => exact ⟨rfl, fun hc => absurd rfl hc⟩
  | some p2 =>
  obtain ⟨mo, cs2⟩ := p2
  dsimp only
  cases getNumber 1 31 2 (skipWs cs2) with
  | none => exact ⟨rfl, fun hc => absurd rfl hc⟩
  | some p3 =>
  obtain ⟨d, cs3⟩ := p3
  dsimp only
  cases getNumber 0 23 2 (skipWs cs3) with
  | none => exact ⟨rfl, fun hc => absurd rfl hc⟩
  | some p4 =>
  obtain ⟨hh, cs4⟩ := p4
  dsimp only
  cases parseLit ':' cs4 with
  | none => exact ⟨rfl, fun hc => absurd rfl hc⟩
  | some cs5 =>
  dsimp only
  cases getNumber 0 59 2 cs5 with
  | none => exact ⟨rfl, fun hc => absurd rfl hc⟩
  | some p5 =>
  obtain ⟨mi, cs6⟩ := p5
  dsimp only
  cases parseLit ':' cs6 with
  | none => exact ⟨rfl, fun hc => absurd rfl hc⟩
  | some cs7 =>
  dsimp only
  cases getNumber 0 61 2 cs7 with
  | none => exact ⟨rfl, fun hc => absurd rfl hc⟩
  | some p6 =>
  obtain ⟨s, cs8⟩ := p6
  dsimp only
  cases getNumber 0 9999 4 (skipWs cs8) with
  | none => exact ⟨rfl, fun hc => absurd rfl hc⟩
  | some p7 =>
  obtain ⟨y, cs9⟩ := p7
  dsimp only
  exact ⟨rfl, fun _ => rfl⟩

/-! The claims about the date codec's parsing entry point. -/

/-- Claim C1 counterexample: on an input with trailing characters after
the RFC 1123 date, no grammar matches the entire input, so under the
claimed semantics (first grammar matching the whole input, else the
zero sentinel) the result would be 0; `to_time_t` nevertheless returns
the parsed instant, because `strptime` accepts a matching prefix. -/
theorem to_time_t_c1_counterexample :
    to_time_t 0 "Sun, 06 Nov 1994 08:49:37 GMT!" = 784111777 ∧
    to_time_t_fullmatch 0 "Sun, 06 Nov 1994 08:49:37 GMT!" = 0 ∧
    (runFmt1123 tmZero "Sun, 06 Nov 1994 08:49:37 GMT!".data).1 = some ['!'] :=
  ⟨by decide, by decide, by decide⟩

/-- Claim C1 (amended): `to_time_t` attempts the three grammars in
strict order and returns the result of the first whose attempt
succeeds, where matching a prefix of the input suffices; although the
source reuses one `std::tm` across attempts, a successful attempt
assigns every field, so the behaviour equals that of independent
attempts on fresh zeroed state. -/
theorem to_time_t_ordered_attempts (off : Int) (s : String) :
    to_time_t off s = to_time_t_indep off s := by
  unfold to_time_t to_time_t_indep
  by_cases hs : s.data = []
  · rw [if_pos hs, if_pos hs]
  · rw [if_neg hs, if_neg hs]
    cases h1 : runFmt1123 tmZero s.data with
    | mk o1 t1 =>
    cases o1 with
    | some r1 => rfl
    | none =>
    dsimp only
    obtain ⟨hf2, hs2⟩ := runFmt850_agree t1 tmZero s.data
    cases h2 : runFmt850 t1 s.data with
    | mk o2 t2 =>
    cases h2f : runFmt850 tmZero s.data with
    | mk o2f t2f =>
    rw [h2, h2f] at hf2 hs2
    dsimp only at hf2 hs2
    cases o2 with
    | some r2 =>
      have ht := hs2 (by simp)
      rw [← hf2]
      dsimp only
      rw [ht]
    | none =>
    have ho2f : o2f = none := hf2.symm
    subst ho2f
    dsimp only
    obtain ⟨hf3, hs3⟩ := runAsctime_agree t2 tmZero s.data
    cases h3 : runAsctime t2 s.data with
    | mk o3 t3 =>
    cases h3f : runAsctime tmZero s.data with
    | mk o3f t3f =>
    rw [h3, h3f] at hf3 hs3
    dsimp only at hf3 hs3
    cases o3 with
    | some r3 =>
      have ht := hs3 (by simp)
      rw [← hf3]
      dsimp only
      rw [ht]
    | none =>
    have ho3f : o3f = none := hf3.symm
    subst ho3f
    rfl

/-- Claim C8: `from_time_t` returns the empty string exactly when the
calendar conversion fails; `to_time_t` returns the zero sentinel on
empty input, and on any input all three grammar attempts reject.  Both
functions are total, so failure surfaces only through these sentinel
values. -/
theorem sentinel_failures :
    (∀ t : Int, gmtime t = none → from_time_t t = "") ∧
    (∀ off : Int, to_time_t off "" = 0) ∧
    (∀ (off : Int) (s : String), (runFmt1123 tmZero s.data).1 = none →
      (runFmt850 tmZero s.data).1 = none → (runAsctime tmZero s.data).1 = none →
      to_time_t off s = 0) := by
  refine ⟨?_, ?_, ?_⟩
  · intro t ht
    unfold from_time_t
    rw [ht]
  · intro off
    unfold to_time_t
    norm_num
  · intro off s h1 h2 h3
    unfold to_time_t
    by_cases hs : s.data = []
    · rw [if_pos hs]
    · rw [if_neg hs]
      cases hh1 : runFmt1123 tmZero s.data with
      | mk o1 t1 =>
      rw [hh1] at h1
      dsimp only at h1
      subst h1
      dsimp only
      cases hh2 : runFmt850 t1 s.data with
      | mk o2 t2 =>
      have hf2 := (runFmt850_agree t1 tmZero s.data).1
      rw [hh2] at hf2
      dsimp only at hf2
      rw [h2] at hf2
      subst hf2
      dsimp only
      cases hh3 : runAsctime t2 s.data with
      | mk o3 t3 =>
      have hf3 := (runAsctime_agree t2 tmZero s.data).1
      rw [hh3] at hf3
      dsimp only at hf3
      rw [h3] at hf3
      subst hf3
      rfl

/-- Witness for C8: a huge instant whose year overflows `tm_year` maps
to the empty string, and both the empty string and a non-date string
map to the zero instant. -/
theorem sentinel_failures_witness :
    from_time_t 1000000000000000000 = "" ∧
    to_time_t 0 "" = 0 ∧
    to_time_t 0 "not a date" = 0 :=
  ⟨sentinel_failures.1 1000000000000000000 (by decide),
   sentinel_failures.2.1 0,
   sentinel_failures.2.2 0 "not a date" (by decide) (by decide) (by decide)⟩

/-! Decimal formatting lemmas. -/

lemma digitChar_fin_facts :
    ∀ i : Fin 10, (digitChar (i : Nat)).isDigit = true ∧
      (digitChar (i : Nat)).toNat = 48 + (i : Nat) ∧
      (digitChar (i : Nat)).isWhitespace = false := by decide

lemma digitChar_isDigit (n : Nat) (h : n < 10) : (digitChar n).isDigit = true :=
  (digitChar_fin_facts ⟨n, h⟩).1

lemma digitChar_toNat (n : Nat) (h : n < 10) : (digitChar n).toNat = 48 + n :=
  (digitChar_fin_facts ⟨n, h⟩).2.1

lemma digitChar_not_ws (n : Nat) (h : n < 10) : (digitChar n).isWhitespace = false :=
  (digitChar_fin_facts ⟨n, h⟩).2.2

lemma natDigitsAux_congr (f1 : Nat) : ∀ (f2 n : Nat), n < f1 → n < f2 →
    natDigitsAux f1 n = natDigitsAux f2 n := by
  induction f1 with
  | zero => intro f2 n h1; omega
  | succ f1' ih =>
    intro f2 n h1 h2
    cases f2 with
    | zero => omega
    | succ f2' =>
      simp only [natDigitsAux]
      by_cases h10 : n < 10
      · simp [h10]
      · simp only [h10, if_false]
        rw [ih f2' (n / 10) (by omega) (by omega)]

lemma natDigits_lt10 (n : Nat) (h : n < 10) : natDigits n = [digitChar n] := by
  simp [natDigits, natDigitsAux, h]

lemma natDigits_ge10 (n : Nat) (h : 10 ≤ n) :
    natDigits n = natDigits (n / 10) ++ [digitChar (n % 10)] := by
  show natDigitsAux (n + 1) n = _
  simp only [natDigitsAux]
  rw [if_neg (by omega)]
  rw [natDigitsAux_congr n (n / 10 + 1) (n / 10) (by omega) (by omega)]
  rfl

lemma natDigits4 (y : Nat) (h1 : 1000 ≤ y) (h2 : y ≤ 9999) :
    natDigits y = [digitChar (y / 1000), digitChar (y / 100 % 10),
      digitChar (y / 10 % 10), digitChar (y % 10)] := by
  have e1 : y / 10 / 10 = y / 100 := by omega
  have e2 : y / 100 / 10 = y / 1000 := by omega
  rw [natDigits_ge10 y (by omega), natDigits_ge10 (y / 10) (by omega), e1,
    natDigits_ge10 (y / 100) (by omega), e2, natDigits_lt10 (y / 1000) (by omega)]
  rfl

lemma pad2_digits (n : Nat) (h : n ≤ 99) :
    pad2 n = [digitChar (n / 10), digitChar (n % 10)] := by
  by_cases h10 : n < 10
  · unfold pad2
    rw [if_pos h10, natDigits_lt10 n h10,
      show n / 10 = 0 by omega, show n % 10 = n by omega]
    rfl
  · unfold pad2
    rw [if_neg h10, natDigits_ge10 n (by omega),
      natDigits_lt10 (n / 10) (by omega)]
    rfl

/-! Correctness facts about the civil calendar algorithm: the
year-of-era formula is a left inverse of the start-of-year formula at
year boundaries (a finite check over the 400 years of an era), it is
monotone, and hence it sandwiches every day-of-era into its year;
likewise the month/day split of a day-of-year round-trips (a finite
check over the 366 possible day-of-year values). -/

lemma yoeOfDoe_mono (a b : Int) (h : a ≤ b) : yoeOfDoe a ≤ yoeOfDoe b := by
  unfold yoeOfDoe
  have h2 : a - a / 1460 ≤ b - b / 1460 := by omega
  have h3 : a / 36524 - a / 146096 ≤ b / 36524 - b / 146096 := by omega
  omega

set_option maxRecDepth 4000 in
lemma k1_fin : ∀ i : Fin 400,
    yoeOfDoe (startOfYoe ((i : Nat) : Int)) = ((i : Nat) : Int) ∧
    yoeOfDoe (startOfYoe (((i : Nat) : Int) + 1) - 1) = ((i : Nat) : Int) := by
  decide

lemma k1 (y : Int) (h1 : 0 ≤ y) (h2 : y ≤ 399) :
    yoeOfDoe (startOfYoe y) = y ∧
    yoeOfDoe (startOfYoe (y + 1) - 1) = y := by
  have h := k1_fin ⟨y.toNat, by omega⟩
  simpa [Int.toNat_of_nonneg h1] using h

lemma yoe_char (doe : Int) (h1 : 0 ≤ doe) (h2 : doe ≤ 146096) :
    0 ≤ yoeOfDoe doe ∧ yoeOfDoe doe ≤ 399 ∧
    startOfYoe (yoeOfDoe doe) ≤ doe ∧
    doe ≤ startOfYoe (yoeOfDoe doe) + 365 := by
  have hz : yoeOfDoe 0 = 0 := by decide
  have hl : yoeOfDoe 146096 = 399 := by decide
  have hm1 := yoeOfDoe_mono 0 doe h1
  have hm2 := yoeOfDoe_mono doe 146096 h2
  rw [hz] at hm1
  rw [hl] at hm2
  refine ⟨hm1, hm2, ?_, ?_⟩
  · by_contra hlt
    push_neg at hlt
    have hy1 : 1 ≤ yoeOfDoe doe := by
      by_contra h0
      push_neg at h0
      have he : yoeOfDoe doe = 0 := by omega
      rw [he] at hlt
      have hs0 : startOfYoe 0 = 0 := by decide
      omega
    have hk := (k1 (yoeOfDoe doe - 1) (by omega) (by omega)).2
    rw [sub_add_cancel] at hk
    have hmono := yoeOfDoe_mono doe (startOfYoe (yoeOfDoe doe) - 1) (by omega)
    rw [hk] at hmono
    omega
  · by_contra hgt
    push_neg at hgt
    by_cases hy2 : yoeOfDoe doe + 1 ≤ 399
    · have hk := (k1 (yoeOfDoe doe + 1) (by omega) hy2).1
      have hstep : startOfYoe (yoeOfDoe doe + 1) ≤ startOfYoe (yoeOfDoe doe) + 366 := by
        unfold startOfYoe
        omega
      have hmono := yoeOfDoe_mono (startOfYoe (yoeOfDoe doe + 1)) doe (by omega)
      rw [hk] at hmono
      omega
    · have he : yoeOfDoe doe = 399 := by omega
      rw [he] at hgt
      have hs399 : startOfYoe 399 = 145731 := by decide
      omega

set_option maxRecDepth 4000 in
lemma td_fin : ∀ i : Fin 366,
    1 ≤ mOfDoy ((i : Nat) : Int) ∧ mOfDoy ((i : Nat) : Int) ≤ 12 ∧
    1 ≤ dOfDoy ((i : Nat) : Int) ∧ dOfDoy ((i : Nat) : Int) ≤ 31 ∧
    doyOfMD (mOfDoy ((i : Nat) : Int)) (dOfDoy ((i : Nat) : Int)) = ((i : Nat) : Int) ∧
    (2 < mOfDoy ((i : Nat) : Int) ↔ ((i : Nat) : Int) ≤ 305) := by
  decide

lemma td (doy : Int) (h1 : 0 ≤ doy) (h2 : doy ≤ 365) :
    1 ≤ mOfDoy doy ∧ mOfDoy doy ≤ 12 ∧
    1 ≤ dOfDoy doy ∧ dOfDoy doy ≤ 31 ∧
    doyOfMD (mOfDoy doy) (dOfDoy doy) = doy ∧
    (2 < mOfDoy doy ↔ doy ≤ 305) := by
  have h := td_fin ⟨doy.toNat, by omega⟩
  simpa [Int.toNat_of_nonneg h1] using h

lemma doy_range (doe : Int) (h1 : 0 ≤ doe) (h2 : doe ≤ 146096) :
    0 ≤ doe - startOfYoe (yoeOfDoe doe) ∧
    doe - startOfYoe (yoeOfDoe doe) ≤ 365 := by
  obtain ⟨ha, hb, hc, hd⟩ := yoe_char doe h1 h2
  omega

lemma daysFromCivil_inv (era yoe doy : Int)
    (hy1 : 0 ≤ yoe) (hy2 : yoe ≤ 399) (hd1 : 0 ≤ doy) (hd2 : doy ≤ 365) :
    daysFromCivil
      (if mOfDoy doy ≤ 2 then yoe + era * 400 + 1 else yoe + era * 400)
      (mOfDoy doy) (dOfDoy doy)
      = era * 146097 + (startOfYoe yoe + doy) - 719468 := by
  have htd := td doy hd1 hd2
  unfold daysFromCivil
  dsimp only
  rw [htd.2.2.2.2.1]
  by_cases hm2 : mOfDoy doy ≤ 2
  · rw [if_pos hm2, if_pos hm2]
    rw [show (yoe + era * 400 + 1 - 1) / 400 = era by omega]
    rw [show yoe + era * 400 + 1 - 1 - era * 400 = yoe by omega]
  · rw [if_neg hm2, if_neg hm2]
    rw [show (yoe + era * 400) / 400 = era by omega]
    rw [show yoe + era * 400 - era * 400 = yoe by omega]

/-- The days-from-civil conversion inverts civil-from-days: recoverable
for every day count. -/
lemma daysFromCivil_civilFromDays (z : Int) :
    daysFromCivil (civilFromDays z).1 (civilFromDays z).2.1 (civilFromDays z).2.2 = z := by
  have hdoe : 0 ≤ z + 719468 - (z + 719468) / 146097 * 146097 ∧
      z + 719468 - (z + 719468) / 146097 * 146097 ≤ 146096 := by omega
  have hyc := yoe_char _ hdoe.1 hdoe.2
  have hdoy := doy_range _ hdoe.1 hdoe.2
  have key := daysFromCivil_inv ((z + 719468) / 146097)
    (yoeOfDoe (z + 719468 - (z + 719468) / 146097 * 146097))
    (z + 719468 - (z + 719468) / 146097 * 146097
      - startOfYoe (yoeOfDoe (z + 719468 - (z + 719468) / 146097 * 146097)))
    hyc.1 hyc.2.1 hdoy.1 hdoy.2
  exact key.trans (by omega)

/-- Within the day range of years 0..9999, the civil year is within
0..9999. -/
lemma civil_year_range (z : Int) (h1 : -719528 ≤ z) (h2 : z ≤ 2932896) :
    0 ≤ (civilFromDays z).1 ∧ (civilFromDays z).1 ≤ 9999 := by
  unfold civilFromDays
  dsimp only
  have hdoe : 0 ≤ z + 719468 - (z + 719468) / 146097 * 146097 ∧
      z + 719468 - (z + 719468) / 146097 * 146097 ≤ 146096 := by omega
  have hyc := yoe_char _ hdoe.1 hdoe.2
  have hdoy := doy_range _ hdoe.1 hdoe.2
  have htd := td _ hdoy.1 hdoy.2
  have hiff := htd.2.2.2.2.2
  have hs399 : yoeOfDoe (z + 719468 - (z + 719468) / 146097 * 146097) = 399 →
      startOfYoe (yoeOfDoe (z + 719468 - (z + 719468) / 146097 * 146097)) = 145731 := by
    intro h
    rw [h]
    decide
  have hs398 : yoeOfDoe (z + 719468 - (z + 719468) / 146097 * 146097) ≤ 398 →
      startOfYoe (yoeOfDoe (z + 719468 - (z + 719468) / 146097 * 146097)) + 365 ≤ 145731 := by
    intro h
    unfold startOfYoe
    omega
  split_ifs with hm2 <;> omega

/-- The month and day-of-month components of `civilFromDays` are always
in range, for every day count. -/
lemma civilFromDays_md_range (z : Int) :
    1 ≤ (civilFromDays z).2.1 ∧ (civilFromDays z).2.1 ≤ 12 ∧
    1 ≤ (civilFromDays z).2.2 ∧ (civilFromDays z).2.2 ≤ 31 := by
  unfold civilFromDays
  dsimp only
  have hdoe : 0 ≤ z + 719468 - (z + 719468) / 146097 * 146097 ∧
      z + 719468 - (z + 719468) / 146097 * 146097 ≤ 146096 := by omega
  have hdoy := doy_range _ hdoe.1 hdoe.2
  have ht := td _ hdoy.1 hdoy.2
  exact ⟨ht.1, ht.2.1, ht.2.2.1, ht.2.2.2.1⟩

/-! Lemmas showing the RFC 1123 parser reads back what the formatter
wrote. -/

lemma digit_not_ws (c : Char) (h : c.isDigit = true) : c.isWhitespace = false := by
  by_contra hws
  simp only [Bool.not_eq_false] at hws
  simp only [Char.isWhitespace, Bool.or_eq_true, decide_eq_true_eq, or_assoc] at hws
  rcases hws with h1 | h1 | h1 | h1 <;> subst h1 <;> exact absurd h (by decide)

lemma digitsVal_append_one (xs : List Char) (c : Char) :
    digitsVal (xs ++ [c]) = 10 * digitsVal xs + (c.toNat - 48) := by
  unfold digitsVal
  rw [List.foldl_append]
  rfl

lemma natDigits_props (y : Nat) :
    (∀ c ∈ natDigits y, c.isDigit = true) ∧ digitsVal (natDigits y) = y := by
  induction y using Nat.strong_induction_on with
  | _ y ih =>
    by_cases h10 : y < 10
    · rw [natDigits_lt10 y h10]
      refine ⟨?_, ?_⟩
      · intro c hc
        simp only [List.mem_singleton] at hc
        subst hc
        exact digitChar_isDigit y h10
      · unfold digitsVal
        simp only [List.foldl_cons, List.foldl_nil]
        rw [digitChar_toNat y h10]
        omega
    · rw [natDigits_ge10 y (by omega)]
      obtain ⟨ihd, ihv⟩ := ih (y / 10) (by omega)
      refine ⟨?_, ?_⟩
      · intro c hc
        rw [List.mem_append] at hc
        rcases hc with hc | hc
        · exact ihd c hc
        · simp only [List.mem_singleton] at hc
          subst hc
          exact digitChar_isDigit (y % 10) (by omega)
      · rw [digitsVal_append_one, ihv, digitChar_toNat (y % 10) (by omega)]
        omega

lemma natDigits_ne_nil (y : Nat) : natDigits y ≠ [] := by
  by_cases h10 : y < 10
  · rw [natDigits_lt10 y h10]
    simp
  · rw [natDigits_ge10 y (by omega)]
    simp

lemma natDigits_length_le4 (y : Nat) (h : y ≤ 9999) : (natDigits y).length ≤ 4 := by
  by_cases c1 : y < 10
  · rw [natDigits_lt10 y c1]
    simp
  · by_cases c2 : y < 100
    · rw [natDigits_ge10 y (by omega), natDigits_lt10 (y / 10) (by omega)]
      simp
    · by_cases c3 : y < 1000
      · rw [natDigits_ge10 y (by omega), natDigits_ge10 (y / 10) (by omega),
          show y / 10 / 10 = y / 100 by omega, natDigits_lt10 (y / 100) (by omega)]
        simp
      · rw [natDigits4 y (by omega) h]
        simp

lemma pad2_props (n : Nat) (h : n ≤ 99) :
    (∀ c ∈ pad2 n, c.isDigit = true) ∧ pad2 n ≠ [] := by
  rw [pad2_digits n h]
  refine ⟨?_, by simp⟩
  intro c hc
  simp only [List.mem_cons, List.not_mem_nil, or_false] at hc
  rcases hc with hc | hc <;> subst hc
  · exact digitChar_isDigit (n / 10) (by omega)
  · exact digitChar_isDigit (n % 10) (by omega)

lemma skipWs_cons_space (rest : List Char) : skipWs (' ' :: rest) = skipWs rest := by
  simp [skipWs]

lemma skipWs_not_ws (c : Char) (rest : List Char) (h : c.isWhitespace = false) :
    skipWs (c :: rest) = c :: rest := by
  simp [skipWs, h]

lemma skipWs_digits (ds rest : List Char) (hne : ds ≠ [])
    (hds : ∀ c ∈ ds, c.isDigit = true) : skipWs (ds ++ rest) = ds ++ rest := by
  cases ds with
  | nil => exact absurd rfl hne
  | cons c ds' =>
    rw [List.cons_append]
    exact skipWs_not_ws c (ds' ++ rest)
      (digit_not_ws c (hds c (List.mem_cons_self c ds')))

lemma parseLit_cons (c : Char) (rest : List Char) : parseLit c (c :: rest) = some rest := by
  simp [parseLit]

lemma parseTz_gmt : parseTz ['G', 'M', 'T'] = [] := by decide

lemma getNumLoop_zero (hi val : Nat) (cs : List Char) :
    getNumLoop hi 0 val cs = (val, cs) := rfl

lemma getNumLoop_stop (hi w val : Nat) (rest : List Char)
    (hrest : ∀ c, rest.head? = some c → c.isDigit = false) :
    getNumLoop hi w val rest = (val, rest) := by
  cases w with
  | zero => rfl
  | succ w' =>
    cases rest with
    | nil => rfl
    | cons c r =>
      have hc : c.isDigit = false := hrest c rfl
      have h1 : getNumLoop hi (w' + 1) val (c :: r)
          = if c.isDigit = true ∧ val * 10 ≤ hi then
              getNumLoop hi w' (val * 10 + (c.toNat - 48)) r
            else (val, c :: r) := rfl
      rw [h1, if_neg]
      simp [hc]

lemma getNumber_pad2 (lo hi n : Nat) (rest : List Char)
    (hlo : lo ≤ n) (hhi : n ≤ hi) (hhi99 : hi ≤ 99) :
    getNumber lo hi 2 (pad2 n ++ rest) = some (n, rest) := by
  rw [pad2_digits n (by omega)]
  simp only [List.cons_append, List.nil_append]
  have hd1v : (digitChar (n / 10)).toNat - 48 = n / 10 := by
    rw [digitChar_toNat (n / 10) (by omega)]
    omega
  have hd2v : (digitChar (n % 10)).toNat - 48 = n % 10 := by
    rw [digitChar_toNat (n % 10) (by omega)]
    omega
  have hloop : getNumLoop hi 1 ((digitChar (n / 10)).toNat - 48)
      (digitChar (n % 10) :: rest) = (n, rest) := by
    have h1 : getNumLoop hi 1 ((digitChar (n / 10)).toNat - 48)
        (digitChar (n % 10) :: rest)
        = if (digitChar (n % 10)).isDigit = true ∧
              ((digitChar (n / 10)).toNat - 48) * 10 ≤ hi then
            getNumLoop hi 0 (((digitChar (n / 10)).toNat - 48) * 10
              + ((digitChar (n % 10)).toNat - 48)) rest
          else (((digitChar (n / 10)).toNat - 48), digitChar (n % 10) :: rest) := rfl
    rw [h1, if_pos ⟨digitChar_isDigit (n % 10) (by omega), by rw [hd1v]; omega⟩,
      getNumLoop_zero, hd1v, hd2v, show n / 10 * 10 + n % 10 = n by omega]
  unfold getNumber
  dsimp only
  rw [digitChar_isDigit (n / 10) (by omega), if_pos rfl,
    show (2 - 1 : Nat) = 1 from rfl, hloop]
  dsimp only
  rw [if_pos ⟨hlo, hhi⟩]

lemma getNumLoop_cons (hi w val : Nat) (c : Char) (cs : List Char) (hw : w ≠ 0)
    (hdig : c.isDigit = true) (hval : val * 10 ≤ hi) :
    getNumLoop hi w val (c :: cs)
      = getNumLoop hi (w - 1) (val * 10 + (c.toNat - 48)) cs := by
  cases w with
  | zero => exact absurd rfl hw
  | succ w' =>
    have h1 : getNumLoop hi (w' + 1) val (c :: cs)
        = if c.isDigit = true ∧ val * 10 ≤ hi then
            getNumLoop hi w' (val * 10 + (c.toNat - 48)) cs
          else (val, c :: cs) := rfl
    rw [h1, if_pos ⟨hdig, hval⟩, Nat.add_sub_cancel]

lemma getNumber_year (y : Nat) (rest : List Char) (hy : y ≤ 9999)
    (hrest : ∀ c, rest.head? = some c → c.isDigit = false) :
    getNumber 0 9999 4 (natDigits y ++ rest) = some (y, rest) := by
  by_cases c1 : y < 10
  · rw [natDigits_lt10 y c1]
    simp only [List.cons_append, List.nil_append]
    unfold getNumber
    dsimp only
    rw [digitChar_isDigit y c1, if_pos rfl, show (4 - 1 : Nat) = 3 from rfl,
      getNumLoop_stop 9999 3 ((digitChar y).toNat - 48) rest hrest]
    dsimp only
    rw [show (digitChar y).toNat - 48 = y from by rw [digitChar_toNat y c1]; omega,
      if_pos ⟨Nat.zero_le y, hy⟩]
  · by_cases c2 : y < 100
    · rw [natDigits_ge10 y (by omega), natDigits_lt10 (y / 10) (by omega)]
      simp only [List.cons_append, List.nil_append]
      unfold getNumber
      dsimp only
      rw [digitChar_isDigit (y / 10) (by omega), if_pos rfl,
        show (4 - 1 : Nat) = 3 from rfl,
        show (digitChar (y / 10)).toNat - 48 = y / 10 from by
          rw [digitChar_toNat (y / 10) (by omega)]; omega,
        getNumLoop_cons 9999 3 (y / 10) _ _ (by omega)
          (digitChar_isDigit (y % 10) (by omega)) (by omega),
        show (3 - 1 : Nat) = 2 from rfl,
        show y / 10 * 10 + ((digitChar (y % 10)).toNat - 48) = y from by
          rw [digitChar_toNat (y % 10) (by omega)]; omega,
        getNumLoop_stop 9999 2 y rest hrest]
      dsimp only
      rw [if_pos ⟨Nat.zero_le y, hy⟩]
    · by_cases c3 : y < 1000
      · rw [natDigits_ge10 y (by omega), natDigits_ge10 (y / 10) (by omega),
          show y / 10 / 10 = y / 100 by omega, natDigits_lt10 (y / 100) (by omega),
          show y / 10 % 10 = y / 10 % 10 from rfl]
        simp only [List.cons_append, List.nil_append]
        unfold getNumber
        dsimp only
        rw [digitChar_isDigit (y / 100) (by omega), if_pos rfl,
          show (4 - 1 : Nat) = 3 from rfl,
          show (digitChar (y / 100)).toNat - 48 = y / 100 from by
            rw [digitChar_toNat (y / 100) (by omega)]; omega,
          getNumLoop_cons 9999 3 (y / 100) _ _ (by omega)
            (digitChar_isDigit (y / 10 % 10) (by omega)) (by omega),
          show (3 - 1 : Nat) = 2 from rfl,
          show y / 100 * 10 + ((digitChar (y / 10 % 10)).toNat - 48) = y / 10 from by
            rw [digitChar_toNat (y / 10 % 10) (by omega)]; omega,
          getNumLoop_cons 9999 2 (y / 10) _ _ (by omega)
            (digitChar_isDigit (y % 10) (by omega)) (by omega),
          show (2 - 1 : Nat) = 1 from rfl,
          show y / 10 * 10 + ((digitChar (y % 10)).toNat - 48) = y from by
            rw [digitChar_toNat (y % 10) (by omega)]; omega,
          getNumLoop_stop 9999 1 y rest hrest]
        dsimp only
        rw [if_pos ⟨Nat.zero_le y, hy⟩]
      · rw [natDigits4 y (by omega) hy]
        simp only [List.cons_append, List.nil_append]
        unfold getNumber
        dsimp only
        rw [digitChar_isDigit (y / 1000) (by omega), if_pos rfl,
          show (4 - 1 : Nat) = 3 from rfl,
          show (digitChar (y / 1000)).toNat - 48 = y / 1000 from by
            rw [digitChar_toNat (y / 1000) (by omega)]; omega,
          getNumLoop_cons 9999 3 (y / 1000) _ _ (by omega)
            (digitChar_isDigit (y / 100 % 10) (by omega)) (by omega),
          show (3 - 1 : Nat) = 2 from rfl,
          show y / 1000 * 10 + ((digitChar (y / 100 % 10)).toNat - 48) = y / 100 from by
            rw [digitChar_toNat (y / 100 % 10) (by omega)]; omega,
          getNumLoop_cons 9999 2 (y / 100) _ _ (by omega)
            (digitChar_isDigit (y / 10 % 10) (by omega)) (by omega),
          show (2 - 1 : Nat) = 1 from rfl,
          show y / 100 * 10 + ((digitChar (y / 10 % 10)).toNat - 48) = y / 10 from by
            rw [digitChar_toNat (y / 10 % 10) (by omega)]; omega,
          getNumLoop_cons 9999 1 (y / 10) _ _ (by omega)
            (digitChar_isDigit (y % 10) (by omega)) (by omega),
          show (1 - 1 : Nat) = 0 from rfl,
          show y / 10 * 10 + ((digitChar (y % 10)).toNat - 48) = y from by
            rw [digitChar_toNat (y % 10) (by omega)]; omega]
        dsimp only [getNumLoop]
        rw [if_pos ⟨Nat.zero_le y, hy⟩]

lemma parseDay_fmt (w : Nat) (hw : w ≤ 6) (rest : List Char) :
    parseNameFrom dayCands ((abDayNames.getD w "?").data ++ ',' :: rest)
      = some (w, ',' :: rest) := by
  interval_cases w <;> rfl

lemma parseMon_fmt (mo : Nat) (hmo : mo ≤ 11) (rest : List Char) :
    parseNameFrom monCands ((abMonNames.getD mo "?").data ++ ' ' :: rest)
      = some (mo, ' ' :: rest) := by
  interval_cases mo <;> rfl

lemma skipWs_mon (mo : Nat) (hmo : mo ≤ 11) (r : List Char) :
    skipWs ((abMonNames.getD mo "?").data ++ r) = (abMonNames.getD mo "?").data ++ r := by
  interval_cases mo <;> rfl

/-- The RFC 1123 `strptime` attempt consumes exactly a string in the
shape the formatter emits (for field values in formatter range with a
year below 10000), recovering every field and leaving no rest. -/
lemma runFmt1123_fmt (tm0 : Tm) (w d mo y hh mi s : Nat)
    (hw : w ≤ 6) (hd1 : 1 ≤ d) (hd : d ≤ 31) (hmo : mo ≤ 11)
    (hy : y ≤ 9999) (hh2 : hh ≤ 23) (hmi : mi ≤ 59) (hs : s ≤ 61) :
    runFmt1123 tm0
      ((abDayNames.getD w "?").data
        ++ ',' :: ' ' :: (pad2 d
        ++ ' ' :: ((abMonNames.getD mo "?").data
        ++ ' ' :: (natDigits y
        ++ ' ' :: (pad2 hh
        ++ ':' :: (pad2 mi
        ++ ':' :: (pad2 s
        ++ ' ' :: 'G' :: 'M' :: 'T' :: [])))))))
      = (some [], ⟨(s : Int), (mi : Int), (hh : Int), (d : Int), (mo : Int),
          (y : Int) - 1900, (w : Int)⟩) := by
  obtain ⟨hpd_dig, hpd_ne⟩ := pad2_props d (by omega)
  obtain ⟨hph_dig, hph_ne⟩ := pad2_props hh (by omega)
  obtain ⟨hpm_dig, hpm_ne⟩ := pad2_props mi (by omega)
  obtain ⟨hps_dig, hps_ne⟩ := pad2_props s (by omega)
  obtain ⟨hnd_dig, hnd_val⟩ := natDigits_props y
  unfold runFmt1123
  rw [parseDay_fmt w hw]
  dsimp only
  rw [parseLit_cons]
  dsimp only
  rw [skipWs_cons_space, skipWs_digits (pad2 d) _ hpd_ne hpd_dig,
    getNumber_pad2 1 31 d _ hd1 hd (by omega)]
  dsimp only
  rw [skipWs_cons_space, skipWs_mon mo hmo, parseMon_fmt mo hmo]
  dsimp only
  rw [skipWs_cons_space, skipWs_digits (natDigits y) _ (natDigits_ne_nil y) hnd_dig,
    getNumber_year y _ hy (by
      intro c hc
      rw [show c = ' ' from (Option.some.inj hc).symm]
      decide)]
  dsimp only
  rw [skipWs_cons_space, skipWs_digits (pad2 hh) _ hph_ne hph_dig,
    getNumber_pad2 0 23 hh _ (Nat.zero_le hh) hh2 (by omega)]
  dsimp only
  rw [parseLit_cons]
  dsimp only
  rw [getNumber_pad2 0 59 mi _ (Nat.zero_le mi) hmi (by omega)]
  dsimp only
  rw [parseLit_cons]
  dsimp only
  rw [getNumber_pad2 0 61 s _ (Nat.zero_le s) hs (by omega)]
  dsimp only
  rw [skipWs_cons_space, skipWs_not_ws 'G' _ (by decide), parseTz_gmt]

lemma from_time_t_some (t : Int) (tm : Tm) (hg : gmtime t = some tm) :
    from_time_t t = String.mk (httpDateChars tm) := by
  unfold from_time_t
  rw [hg]

lemma dayName_ne_nil (n : Nat) (h : n ≤ 6) : (abDayNames.getD n "?").data ≠ [] := by
  interval_cases n <;> decide

/-! The round-trip claim. -/

/-- Claim C10 counterexample: at the first instant of year 10000 the
formatter emits a five-digit year, which `%Y` (at most four digits)
cannot read back, every grammar rejects, and the round trip collapses
to the zero sentinel instead of reproducing the calendar fields. -/
theorem roundtrip_c10_counterexample :
    from_time_t 253402300800 = "Sat, 01 Jan 10000 00:00:00 GMT" ∧
    to_time_t 0 (from_time_t 253402300800) = 0 ∧
    (253402300800 : Int) ≠ 0 :=
  ⟨by decide, by decide, by decide⟩

/-- Claim C10 (amended): under the UTC process time zone (offset zero),
for every instant whose UTC year is within 0..9999, parsing the
formatted date recovers exactly the original instant, and with it every
UTC calendar field. -/
theorem to_time_t_from_time_t_roundtrip (t : Int)
    (h1 : -62167219200 ≤ t) (h2 : t ≤ 253402300799) :
    to_time_t 0 (from_time_t t) = t ∧
    gmtime (to_time_t 0 (from_time_t t)) = gmtime t := by
  have hdays : -719528 ≤ t / 86400 ∧ t / 86400 ≤ 2932896 := by omega
  have hyr := civil_year_range (t / 86400) hdays.1 hdays.2
  have hmd := civilFromDays_md_range (t / 86400)
  have hpow : -((2 : Int) ^ 31) = -2147483648 ∧ ((2 : Int) ^ 31) - 1 = 2147483647 := by
    norm_num
  have hcond : ¬((civilFromDays (t / 86400)).1 - 1900 < -(2 ^ 31) ∨
      (2 : Int) ^ 31 - 1 < (civilFromDays (t / 86400)).1 - 1900) := by
    rw [hpow.1, hpow.2]
    omega
  have hg : gmtime t = some ⟨t % 86400 % 60, t % 86400 / 60 % 60, t % 86400 / 3600,
      (civilFromDays (t / 86400)).2.2, (civilFromDays (t / 86400)).2.1 - 1,
      (civilFromDays (t / 86400)).1 - 1900, (t / 86400 + 4) % 7⟩ := by
    unfold gmtime
    dsimp only
    rw [if_neg hcond]
  suffices hmain : to_time_t 0 (from_time_t t) = t by
    exact ⟨hmain, by rw [hmain]⟩
  rw [from_time_t_some t _ hg]
  unfold to_time_t
  dsimp only
  rw [if_neg (by unfold httpDateChars; simp)]
  unfold httpDateChars
  dsimp only
  rw [show (civilFromDays (t / 86400)).1 - 1900 + 1900 = (civilFromDays (t / 86400)).1
      by omega]
  rw [show intDigits (civilFromDays (t / 86400)).1
      = natDigits ((civilFromDays (t / 86400)).1).toNat from by
    unfold intDigits
    rw [if_neg (by omega)]]
  rw [runFmt1123_fmt tmZero ((t / 86400 + 4) % 7).toNat
    ((civilFromDays (t / 86400)).2.2).toNat
    (((civilFromDays (t / 86400)).2.1 - 1)).toNat
    ((civilFromDays (t / 86400)).1).toNat
    (t % 86400 / 3600).toNat (t % 86400 / 60 % 60).toNat (t % 86400 % 60).toNat
    (by omega) (by omega) (by omega) (by omega) (by omega) (by omega) (by omega)
    (by omega)]
  dsimp only
  unfold mktime
  dsimp only
  rw [Int.toNat_of_nonneg (show (0 : Int) ≤ t % 86400 % 60 by omega),
    Int.toNat_of_nonneg (show (0 : Int) ≤ t % 86400 / 60 % 60 by omega),
    Int.toNat_of_nonneg (show (0 : Int) ≤ t % 86400 / 3600 by omega),
    Int.toNat_of_nonneg (show (0 : Int) ≤ (civilFromDays (t / 86400)).2.2 by omega),
    Int.toNat_of_nonneg (show (0 : Int) ≤ (civilFromDays (t / 86400)).2.1 - 1 by omega),
    Int.toNat_of_nonneg (show (0 : Int) ≤ (civilFromDays (t / 86400)).1 by omega)]
  rw [show (civilFromDays (t / 86400)).1 - 1900 + 1900 = (civilFromDays (t / 86400)).1
      by omega,
    show (civilFromDays (t / 86400)).2.1 - 1 + 1 = (civilFromDays (t / 86400)).2.1
      by omega]
  rw [daysFromCivil_civilFromDays (t / 86400)]
  omega

/-- Witness for the amended C10 at the RFC example instant. -/
theorem to_time_t_from_time_t_roundtrip_witness :
    to_time_t 0 (from_time_t 784111777) = 784111777 ∧
    gmtime (to_time_t 0 (from_time_t 784111777)) = gmtime 784111777 :=
  to_time_t_from_time_t_roundtrip 784111777 (by decide) (by decide)

/-! The claims about the date codec's formatter. -/

/-- Claim C2 counterexample: at an instant whose UTC year is 500, the
formatter emits the year as the three-character decimal `500` (as `%Y`
prints a plain decimal number), not the four-digit `0500` that the
RFC 7231 preferred form `Dow, DD Mon YYYY HH:MM:SS GMT` requires, so
the output is not in the claimed form for every representable
instant. -/
theorem from_time_t_c2_counterexample :
    gmtime (-46388649600) = some ⟨0, 0, 8, 1, 0, 500 - 1900, 5⟩ ∧
    from_time_t (-46388649600) = "Fri, 01 Jan 500 08:00:00 GMT" ∧
    from_time_t (-46388649600) ≠ rfc7231DateText ⟨0, 0, 8, 1, 0, 500 - 1900, 5⟩ :=
  ⟨by decide, by decide, by decide⟩

/-- Claim C2 (amended): for every instant whose UTC year is within
1000..9999, `from_time_t` returns exactly the RFC 7231 preferred form
built from the UTC broken-down fields of the instant, two-digit day,
hour, minute and second, four-digit year, GMT suffix; the conversion
uses `gmtime`, which never consults the process time zone, so no local
offset is applied. -/
lemma httpDateChars_eq_rfc (tm : Tm)
    (hd1 : 1 ≤ tm.tm_mday) (hd2 : tm.tm_mday ≤ 31)
    (hh1 : 0 ≤ tm.tm_hour) (hh2 : tm.tm_hour ≤ 23)
    (hm1 : 0 ≤ tm.tm_min) (hm2 : tm.tm_min ≤ 59)
    (hs1 : 0 ≤ tm.tm_sec) (hs2 : tm.tm_sec ≤ 61)
    (hy1 : 1000 ≤ tm.tm_year + 1900) (hy2 : tm.tm_year + 1900 ≤ 9999) :
    String.mk (httpDateChars tm) = rfc7231DateText tm := by
  unfold httpDateChars rfc7231DateText
  congr 1
  rw [pad2_digits tm.tm_mday.toNat (by omega), pad2_digits tm.tm_hour.toNat (by omega),
    pad2_digits tm.tm_min.toNat (by omega), pad2_digits tm.tm_sec.toNat (by omega)]
  unfold intDigits
  rw [if_neg (by omega), natDigits4 (tm.tm_year + 1900).toNat (by omega) (by omega)]
  simp

lemma gmtime_fields (t : Int) (tm : Tm) (hg : gmtime t = some tm) :
    tm = ⟨t % 86400 % 60, t % 86400 / 60 % 60, t % 86400 / 3600,
      (civilFromDays (t / 86400)).2.2, (civilFromDays (t / 86400)).2.1 - 1,
      (civilFromDays (t / 86400)).1 - 1900, (t / 86400 + 4) % 7⟩ := by
  unfold gmtime at hg
  dsimp only at hg
  split_ifs at hg with hov
  first
  | rfl
  | exact hg.symm
  | exact (Option.some.inj hg).symm

theorem from_time_t_rfc7231 (t : Int) (tm : Tm) (hg : gmtime t = some tm)
    (hy1 : 1000 ≤ tm.tm_year + 1900) (hy2 : tm.tm_year + 1900 ≤ 9999) :
    from_time_t t = rfc7231DateText tm := by
  unfold from_time_t
  rw [hg]
  dsimp only
  have hmd := civilFromDays_md_range (t / 86400)
  have hfe := gmtime_fields t tm hg
  have hfd : tm.tm_mday = (civilFromDays (t / 86400)).2.2 := by rw [hfe]
  have hfh : tm.tm_hour = t % 86400 / 3600 := by rw [hfe]
  have hfm : tm.tm_min = t % 86400 / 60 % 60 := by rw [hfe]
  have hfs : tm.tm_sec = t % 86400 % 60 := by rw [hfe]
  refine httpDateChars_eq_rfc tm ?_ ?_ ?_ ?_ ?_ ?_ ?_ ?_ hy1 hy2
  · rw [hfd]
    exact hmd.2.2.1
  · rw [hfd]
    exact hmd.2.2.2
  · rw [hfh]
    omega
  · rw [hfh]
    omega
  · rw [hfm]
    omega
  · rw [hfm]
    omega
  · rw [hfs]
    omega
  · rw [hfs]
    omega

/-- Witness for the amended C2 at the RFC example instant. -/
theorem from_time_t_rfc7231_witness :
    from_time_t 784111777 = "Sun, 06 Nov 1994 08:49:37 GMT" ∧
    rfc7231DateText ⟨37, 49, 8, 6, 10, 94, 0⟩ = "Sun, 06 Nov 1994 08:49:37 GMT" :=
  ⟨(from_time_t_rfc7231 784111777 ⟨37, 49, 8, 6, 10, 94, 0⟩ (by decide)
      (by decide) (by decide)).trans (by decide),
   by decide⟩

/-! Auxiliary lemmas about the store operations. -/

lemma setFirstValue_none_iff (n v : String) (l : List Field) :
    setFirstValue n v l = none ↔ ∀ f ∈ l, nameMatches f.name n = false := by
  induction l with
  | nil => simp [setFirstValue]
  | cons f fs ih =>
    by_cases hf : nameMatches f.name n = true
    · simp [setFirstValue, hf]
    · simp only [Bool.not_eq_true] at hf
      simp [setFirstValue, hf, ih]

lemma setFirstValue_some_spec (n v : String) (l m : List Field)
    (h : setFirstValue n v l = some m) :
    ∃ i f, l.get? i = some f ∧ nameMatches f.name n = true ∧
      (∀ j g, j < i → l.get? j = some g → nameMatches g.name n = false) ∧
      m = l.take i ++ ⟨f.name, v⟩ :: l.drop (i + 1) := by
  induction l generalizing m with
  | nil => simp [setFirstValue] at h
  | cons f fs ih =>
    by_cases hf : nameMatches f.name n = true
    · rw [setFirstValue, if_pos hf, Option.some.injEq] at h
      refine ⟨0, f, rfl, hf, ?_, ?_⟩
      · intro j g hj; omega
      · simpa using h.symm
    · rw [setFirstValue, if_neg hf] at h
      rcases htail : setFirstValue n v fs with _ | m'
      · rw [htail] at h; simp at h
      · rw [htail] at h
        simp only [Option.map_some', Option.some.injEq] at h
        subst h
        obtain ⟨i, g, h1, h2, h3, h4⟩ := ih m' htail
        refine ⟨i + 1, g, by simpa using h1, h2, ?_, by simp [h4]⟩
        intro j g' hj hg'
        cases j with
        | zero =>
          simp only [List.get?_cons_zero, Option.some.injEq] at hg'
          subst hg'
          simpa using hf
        | succ k =>
          exact h3 k g' (by omega) (by simpa using hg')

lemma setFirstValue_length (n v : String) (l m : List Field)
    (h : setFirstValue n v l = some m) : m.length = l.length := by
  induction l generalizing m with
  | nil => simp [setFirstValue] at h
  | cons f fs ih =>
    by_cases hf : nameMatches f.name n = true
    · rw [setFirstValue, if_pos hf, Option.some.injEq] at h
      simp [← h]
    · rw [setFirstValue, if_neg hf] at h
      rcases htail : setFirstValue n v fs with _ | m'
      · rw [htail] at h; simp at h
      · rw [htail] at h
        simp only [Option.map_some', Option.some.injEq] at h
        subst h
        simp [ih m' htail]

lemma countP_not_eq (p : Field → Bool) (l : List Field) :
    l.countP (fun f => !p f) = l.length - l.countP p := by
  induction l with
  | nil => simp
  | cons f fs ih =>
    have hcount : fs.countP p ≤ fs.length := List.countP_le_length p
    by_cases hf : p f = true
    · rw [List.countP_cons_of_pos _ _ hf,
        List.countP_cons_of_neg _ _ (by simp [hf]), List.length_cons, ih]
      omega
    · rw [List.countP_cons_of_neg _ _ hf,
        List.countP_cons_of_pos _ _ (by simpa using hf), List.length_cons, ih]
      omega

lemma find?_first_spec (p : Field → Bool) (l : List Field) (hf : l.any p = true) :
    ∃ i f, l.get? i = some f ∧ p f = true ∧
      (∀ j g, j < i → l.get? j = some g → p g = false) ∧ l.find? p = some f := by
  induction l with
  | nil => simp at hf
  | cons f fs ih =>
    by_cases hp : p f = true
    · exact ⟨0, f, rfl, hp, fun j g hj => by omega, by simp [List.find?_cons, hp]⟩
    · simp only [Bool.not_eq_true] at hp
      simp only [List.any_cons, hp, Bool.false_or] at hf
      obtain ⟨i, g, h1, h2, h3, h4⟩ := ih hf
      refine ⟨i + 1, g, by simpa using h1, h2, ?_, by simp [List.find?_cons, hp, h4]⟩
      intro j g' hj hg'
      cases j with
      | zero =>
        simp only [List.get?_cons_zero, Option.some.injEq] at hg'
        subst hg'
        exact hp
      | succ k => exact h3 k g' (by omega) (by simpa using hg')

lemma applyOp_limit (h : Header) (o : HOp) : (applyOp h o).limit = h.limit := by
  cases o with
  | addF n v =>
    simp only [applyOp, Header.add_field]
    split <;> rfl
  | setF n v =>
    simp only [applyOp, Header.set_field]
    rcases hsv : setFirstValue n v h.map_ with _ | m
    · simp only [Header.add_field]; split <;> rfl
    · rfl
  | eraseF n => rfl
  | clearF => rfl

lemma applyOp_size (h : Header) (o : HOp) (hle : h.size ≤ h.limit) :
    (applyOp h o).size ≤ h.limit := by
  cases o with
  | addF n v =>
    simp only [applyOp, Header.add_field]
    split
    next hc =>
      simp only [Header.size, List.length_append, List.length_cons,
        List.length_nil] at hc ⊢
      omega
    next hc => exact hle
  | setF n v =>
    simp only [applyOp, Header.set_field]
    rcases hsv : setFirstValue n v h.map_ with _ | m
    · simp only [Header.add_field]
      split
      next hc =>
        simp only [Header.size, List.length_append, List.length_cons,
          List.length_nil] at hc ⊢
        omega
      next hc => exact hle
    · have hlen := setFirstValue_length n v h.map_ m hsv
      simp only [Header.size] at hle ⊢
      omega
  | eraseF n =>
    have hfl := List.length_filter_le (fun f => !nameMatches f.name n) h.map_
    simp only [applyOp, Header.erase, Header.size] at *
    omega
  | clearF => simp [applyOp, Header.clear, Header.size]

/-! The claims about the header store. -/

/-- Claim C3: when `size() < limit`, `add_field` appends the new field at
the end of the sequence and returns `true` (also when a field of the same
name is already present: the store is arbitrary here, no dedup occurs);
when `size()` equals `limit`, `add_field` returns `false` and leaves the
store unchanged. -/
theorem add_field_spec (h : Header) (n v : String) :
    (h.size < h.limit →
      h.add_field n v = (true, ⟨h.limit, h.map_ ++ [⟨n, v⟩]⟩)) ∧
    (h.size = h.limit → h.add_field n v = (false, h)) := by
  constructor
  · intro hlt
    simp [Header.add_field, hlt]
  · intro heq
    simp [Header.add_field, heq]

/-- Witness for C3 at concrete stores: an append below capacity succeeds,
an append at capacity fails and changes nothing. -/
theorem add_field_spec_witness :
    (mkHeader 1).add_field "Host" "example.com"
        = (true, ⟨1, [⟨"Host", "example.com"⟩]⟩) ∧
    (⟨1, [⟨"Host", "example.com"⟩]⟩ : Header).add_field "A" "b"
        = (false, ⟨1, [⟨"Host", "example.com"⟩]⟩) :=
  ⟨(add_field_spec (mkHeader 1) "Host" "example.com").1 (by decide),
   (add_field_spec ⟨1, [⟨"Host", "example.com"⟩]⟩ "A" "b").2 (by decide)⟩

/-- Claim C4: serialization appends, for each stored field in insertion
order, exactly the line `name`-colon-space-`value`-CRLF, with no leading
or trailing blank line; in particular the two-field example store of the
spec serializes to the exact expected text. -/
theorem toText_spec (h : Header) (n v : String) (hlt : h.size < h.limit) :
    (h.add_field n v).2.toText = h.toText ++ (n ++ ": " ++ v ++ "\r\n") ∧
    (((mkHeader 100).add_field "Host" "example.com").2.add_field
        "Content-Length" "5").2.toText
      = "Host: example.com\r\nContent-Length: 5\r\n" := by
  constructor
  · simp only [Header.add_field, hlt, if_pos, Header.toText, List.map_append,
      List.map_cons, List.map_nil, String.join, List.foldl_append, List.foldl_cons,
      List.foldl_nil]
  · rfl

/-- Witness for C4 at a concrete store below capacity. -/
theorem toText_spec_witness :
    ((⟨2, [⟨"Host", "example.com"⟩]⟩ : Header).add_field
        "Content-Length" "5").2.toText
      = (⟨2, [⟨"Host", "example.com"⟩]⟩ : Header).toText
        ++ ("Content-Length" ++ ": " ++ "5" ++ "\r\n") ∧
    (((mkHeader 100).add_field "Host" "example.com").2.add_field
        "Content-Length" "5").2.toText
      = "Host: example.com\r\nContent-Length: 5\r\n" :=
  toText_spec ⟨2, [⟨"Host", "example.com"⟩]⟩ "Content-Length" "5" (by decide)

/-- Claim C5: when some stored field's name matches case-insensitively,
`set_field` replaces only the value of the first such field, in place,
preserving its position, the stored name, `size()` and every other
field; when no field matches, `set_field` is exactly `add_field`, with
the same capacity check and boolean result. -/
theorem set_field_spec (h : Header) (n v : String) :
    (h.has_field n = true → ∃ i f,
        h.map_.get? i = some f ∧ nameMatches f.name n = true ∧
        (∀ j g, j < i → h.map_.get? j = some g → nameMatches g.name n = false) ∧
        h.set_field n v =
          (true, ⟨h.limit, h.map_.take i ++ ⟨f.name, v⟩ :: h.map_.drop (i + 1)⟩)) ∧
    (h.has_field n = false → h.set_field n v = h.add_field n v) := by
  constructor
  · intro hhf
    rcases hsv : setFirstValue n v h.map_ with _ | m
    · rw [setFirstValue_none_iff] at hsv
      simp only [Header.has_field, List.any_eq_true] at hhf
      obtain ⟨f, hmem, hmatch⟩ := hhf
      rw [hsv f hmem] at hmatch
      cases hmatch
    · obtain ⟨i, f, h1, h2, h3, h4⟩ := setFirstValue_some_spec n v h.map_ m hsv
      exact ⟨i, f, h1, h2, h3, by simp [Header.set_field, hsv, h4]⟩
  · intro hhf
    have hnone : setFirstValue n v h.map_ = none := by
      rw [setFirstValue_none_iff]
      intro f hmem
      simp only [Header.has_field, List.any_eq_false] at hhf
      simpa using hhf f hmem
    simp [Header.set_field, hnone]

/-- Witness for C5 at concrete stores: replacement of the first
case-insensitive match, and fallthrough to `add_field` on an absent
name. -/
theorem set_field_spec_witness :
    (∃ i f, ([⟨"Host", "a"⟩] : List Field).get? i = some f ∧
        nameMatches f.name "hOsT" = true ∧
        (∀ j g, j < i → ([⟨"Host", "a"⟩] : List Field).get? j = some g →
          nameMatches g.name "hOsT" = false) ∧
        (⟨2, [⟨"Host", "a"⟩]⟩ : Header).set_field "hOsT" "b" =
          (true, ⟨2, ([⟨"Host", "a"⟩] : List Field).take i
            ++ ⟨f.name, "b"⟩ :: ([⟨"Host", "a"⟩] : List Field).drop (i + 1)⟩)) ∧
    (⟨2, [⟨"Host", "a"⟩]⟩ : Header).set_field "Date" "b"
      = (⟨2, [⟨"Host", "a"⟩]⟩ : Header).add_field "Date" "b" :=
  ⟨(set_field_spec ⟨2, [⟨"Host", "a"⟩]⟩ "hOsT" "b").1 (by decide),
   (set_field_spec ⟨2, [⟨"Host", "a"⟩]⟩ "Date" "b").2 (by decide)⟩

/-- Claim C6: `erase` removes every field whose name matches
case-insensitively and no others, preserving the relative order of the
remaining fields (they form a sublist); afterwards `has_field` on that
name is false, and `size()` has decreased by exactly the number of
matching fields; the capacity is untouched. -/
theorem erase_spec (h : Header) (n : String) :
    (h.erase n).has_field n = false ∧
    (h.erase n).size = h.size - h.map_.countP (fun f => nameMatches f.name n) ∧
    (h.erase n).map_.Sublist h.map_ ∧
    (∀ f ∈ h.map_, nameMatches f.name n = false → f ∈ (h.erase n).map_) ∧
    (h.erase n).limit = h.limit := by
  refine ⟨?_, ?_, ?_, ?_, rfl⟩
  · simp only [Header.has_field, Header.erase, List.any_eq_false]
    intro f hmem
    have := List.of_mem_filter hmem
    simpa using this
  · simp only [Header.erase, Header.size, ← List.countP_eq_length_filter]
    exact countP_not_eq (fun f => nameMatches f.name n) h.map_
  · exact List.filter_sublist h.map_
  · intro f hmem hmatch
    simp only [Header.erase, List.mem_filter]
    exact ⟨hmem, by simp [hmatch]⟩

/-- Witness for C6: in a concrete store, a non-matching field survives
`erase` of a name that two other fields match case-insensitively. -/
theorem erase_spec_witness :
    (⟨3, [⟨"X", "1"⟩, ⟨"Host", "h"⟩, ⟨"x", "2"⟩]⟩ : Header).erase "X"
        = ⟨3, [⟨"Host", "h"⟩]⟩ ∧
    (⟨"Host", "h"⟩ : Field) ∈
      ((⟨3, [⟨"X", "1"⟩, ⟨"Host", "h"⟩, ⟨"x", "2"⟩]⟩ : Header).erase "X").map_ :=
  ⟨by decide,
   (erase_spec ⟨3, [⟨"X", "1"⟩, ⟨"Host", "h"⟩, ⟨"x", "2"⟩]⟩ "X").2.2.2.1
     ⟨"Host", "h"⟩ (by decide) (by decide)⟩

/-- Claim C7: starting from a store constructed with any capacity, every
sequence of `add_field`, `set_field`, `erase` and `clear` operations
keeps `size() ≤ limit`, and the capacity itself never changes; the
default-constructed store uses capacity 100. -/
theorem header_invariant (limit : Nat) (ops : List HOp) :
    (applyOps (mkHeader limit) ops).limit = limit ∧
    (applyOps (mkHeader limit) ops).size ≤ limit ∧
    defaultLimit = 100 := by
  suffices hgen : ∀ h : Header, h.size ≤ h.limit →
      (applyOps h ops).limit = h.limit ∧ (applyOps h ops).size ≤ h.limit by
    obtain ⟨h1, h2⟩ := hgen (mkHeader limit) (by simp [mkHeader, Header.size])
    exact ⟨h1, by simpa [mkHeader] using h2, rfl⟩
  induction ops with
  | nil => exact fun h hh => ⟨rfl, hh⟩
  | cons o os ih =>
    intro h hh
    have h1 := applyOp_limit h o
    have h2 := applyOp_size h o hh
    obtain ⟨ia, ib⟩ := ih (applyOp h o) (by rw [h1]; exact h2)
    constructor
    · calc (applyOps h (o :: os)).limit = (applyOps (applyOp h o) os).limit := rfl
        _ = (applyOp h o).limit := ia
        _ = h.limit := h1
    · calc (applyOps h (o :: os)).size = (applyOps (applyOp h o) os).size := rfl
        _ ≤ (applyOp h o).limit := ib
        _ = h.limit := h1

/-- Claim C9: under the precondition `has_field(name) = true`, `get_value`
returns the value of the first field whose name matches
case-insensitively; the first-match index exists and every earlier field
fails the match, so the absent-name error branch is unreachable. -/
theorem get_value_spec (h : Header) (n : String) (hf : h.has_field n = true) :
    ∃ i f, h.map_.get? i = some f ∧ nameMatches f.name n = true ∧
      (∀ j g, j < i → h.map_.get? j = some g → nameMatches g.name n = false) ∧
      h.get_value n = some f.value := by
  obtain ⟨i, f, h1, h2, h3, h4⟩ :=
    find?_first_spec (fun f => nameMatches f.name n) h.map_ hf
  exact ⟨i, f, h1, h2, h3, by simp [Header.get_value, h4]⟩

/-- Witness for C9 at a concrete store whose second field is the first
case-insensitive match. -/
theorem get_value_spec_witness :
    ∃ i f, ([⟨"A", "1"⟩, ⟨"Host", "h"⟩, ⟨"hosT", "z"⟩] : List Field).get? i = some f ∧
      nameMatches f.name "HOST" = true ∧
      (∀ j g, j < i →
        ([⟨"A", "1"⟩, ⟨"Host", "h"⟩, ⟨"hosT", "z"⟩] : List Field).get? j = some g →
        nameMatches g.name "HOST" = false) ∧
      (⟨9, [⟨"A", "1"⟩, ⟨"Host", "h"⟩, ⟨"hosT", "z"⟩]⟩ : Header).get_value "HOST"
        = some f.value :=
  get_value_spec ⟨9, [⟨"A", "1"⟩, ⟨"Host", "h"⟩, ⟨"hosT", "z"⟩]⟩ "HOST" (by decide)

end Http
